/-
Verification of the secure-auth-app server core: CSRF token engine
(`server/src/middleware/csrf.ts`), rate limiter
(`server/src/middleware/rateLimit.ts`, `server/src/lib/ecs.ts` Redis part),
account lockout (`server/src/routes/auth.ts`, auth event service), and the
administrative unlock (`server/src/routes/users.ts`).

The TypeScript sources are shallowly embedded: JS strings are Lean `String`
(char lists for the primitive operations), epoch milliseconds are `Nat`,
mutable stores are passed explicitly as `String → Option _` maps, thrown
errors are `Except Unit _`, and `crypto.createHmac('sha256', …)` is a full
executable HMAC-SHA256 over byte lists (bytes as `Nat` mod 256, words as
`Nat` mod 2^32).  ASCII strings (timestamps, hex digests, keys) have
one byte per char, so byte-level `Buffer` comparisons coincide with
string equality.
-/
import Mathlib

namespace SecureAuth

/-! ## JS string primitives

Models of the JavaScript string operations the middleware uses:
`String.prototype.split` with a one-char separator, `Number.prototype.toString`
for naturals (`Date.now().toString()`), and `parseInt(s, 10)`. -/

/-- JS `s.split(sep)` for a single-character separator, on char lists.
`split` keeps empty fragments: `"a..b" → ["a", "", "b"]`, `"" → [""]`. -/
def splitChar (sep : Char) : List Char → List (List Char)
  | [] => [[]]
  | c :: rest =>
    if c = sep then [] :: splitChar sep rest
    else
      match splitChar sep rest with
      | h :: t => (c :: h) :: t
      | [] => [[c]]

/-- The ASCII digit character for `n < 10`. -/
def decDigit (n : Nat) : Char := Char.ofNat (48 + n)

/-- Decimal digits of `n`, most significant first, with structural fuel
(so that the kernel can evaluate it); `decRepr` supplies enough fuel. -/
def decReprAux : Nat → Nat → List Char
  | 0, _ => []
  | fuel + 1, n =>
    if n < 10 then [decDigit n]
    else decReprAux fuel (n / 10) ++ [decDigit (n % 10)]

/-- JS `n.toString()` for a natural number: standard decimal digits. -/
def decRepr (n : Nat) : List Char := decReprAux (n + 1) n

/-- Value of a list of decimal digit characters, most significant first. -/
def digitsVal (cs : List Char) : Nat :=
  cs.foldl (fun a c => 10 * a + (c.toNat - 48)) 0

/-- Whitespace skipped by JS `parseInt` (the ASCII cases). -/
def isJsWhitespace (c : Char) : Bool :=
  c = ' ' || c = '\t' || c = '\n' || c = '\r' || c = '\x0b' || c = '\x0c'

/-- Parse the longest decimal-digit prefix; `none` when there is none
(this is the `isNaN` case of `parseInt`). -/
def digitsPrefixVal (cs : List Char) : Option Nat :=
  match cs.takeWhile Char.isDigit with
  | [] => none
  | ds => some (digitsVal ds)

/-- JS `parseInt(s, 10)`: skip leading whitespace, optional sign, then the
longest digit prefix — trailing garbage is ignored, `none` iff `NaN`. -/
def jsParseIntDec (s : List Char) : Option Int :=
  match s.dropWhile isJsWhitespace with
  | '-' :: r => (digitsPrefixVal r).map (fun v : Nat => -(v : Int))
  | '+' :: r => (digitsPrefixVal r).map (fun v : Nat => (v : Int))
  | r => (digitsPrefixVal r).map (fun v : Nat => (v : Int))

theorem splitChar_ne_nil (sep : Char) (cs : List Char) : splitChar sep cs ≠ [] := by
  induction cs with
  | nil => simp [splitChar]
  | cons c rest ih =>
    simp only [splitChar]
    split
    · simp
    · cases h : splitChar sep rest with
      | nil => exact absurd h ih
      | cons a t => simp

theorem splitChar_of_not_mem {sep : Char} {cs : List Char} (h : sep ∉ cs) :
    splitChar sep cs = [cs] := by
  induction cs with
  | nil => rfl
  | cons c rest ih =>
    simp only [List.mem_cons, not_or] at h
    simp only [splitChar]
    rw [if_neg (fun hc => h.1 hc.symm), ih h.2]

theorem splitChar_append_sep {sep : Char} {a : List Char} (b : List Char)
    (ha : sep ∉ a) : splitChar sep (a ++ sep :: b) = a :: splitChar sep b := by
  induction a with
  | nil => simp [splitChar]
  | cons c rest ih =>
    simp only [List.mem_cons, not_or] at ha
    simp only [List.cons_append, splitChar, List.append_eq]
    rw [if_neg (fun hc => ha.1 hc.symm), ih ha.2]

/-- Splitting `a ++ "." ++ b` where neither side contains the separator
yields exactly the two parts. -/
theorem splitChar_pair {sep : Char} {a b : List Char}
    (ha : sep ∉ a) (hb : sep ∉ b) :
    splitChar sep (a ++ sep :: b) = [a, b] := by
  rw [splitChar_append_sep b ha, splitChar_of_not_mem hb]

theorem decDigit_isDigit {n : Nat} (h : n < 10) : (decDigit n).isDigit = true := by
  interval_cases n <;> decide

theorem decReprAux_all_digits (fuel n : Nat) : ∀ c ∈ decReprAux fuel n, c.isDigit = true := by
  induction fuel generalizing n with
  | zero => simp [decReprAux]
  | succ fuel ih =>
    rw [decReprAux]
    split
    · next h =>
      intro c hc
      rw [List.mem_singleton] at hc
      exact hc ▸ decDigit_isDigit h
    · intro c hc
      rcases List.mem_append.mp hc with h1 | h2
      · exact ih (n / 10) c h1
      · rw [List.mem_singleton] at h2
        exact h2 ▸ decDigit_isDigit (Nat.mod_lt n (by omega))

theorem decRepr_all_digits (n : Nat) : ∀ c ∈ decRepr n, c.isDigit = true :=
  decReprAux_all_digits (n + 1) n

theorem decRepr_ne_nil (n : Nat) : decRepr n ≠ [] := by
  rw [decRepr, decReprAux]
  split <;> simp

theorem digitsVal_append (a b : List Char) :
    digitsVal (a ++ b) = b.foldl (fun x c => 10 * x + (c.toNat - 48)) (digitsVal a) := by
  simp [digitsVal, List.foldl_append]

theorem decDigit_toNat {n : Nat} (h : n < 10) : (decDigit n).toNat = 48 + n := by
  interval_cases n <;> decide

theorem digitsVal_decReprAux (fuel n : Nat) (h : n < 10 ^ fuel) :
    digitsVal (decReprAux fuel n) = n := by
  induction fuel generalizing n with
  | zero =>
    have : n = 0 := by simpa using h
    simp [decReprAux, digitsVal, this]
  | succ fuel ih =>
    rw [decReprAux]
    split
    · next h10 =>
      simp only [digitsVal, List.foldl_cons, List.foldl_nil]
      rw [decDigit_toNat h10]
      omega
    · have hdiv : n / 10 < 10 ^ fuel := by
        rw [Nat.div_lt_iff_lt_mul (by omega)]
        calc n < 10 ^ (fuel + 1) := h
          _ = 10 ^ fuel * 10 := by ring
      rw [digitsVal_append, ih (n / 10) hdiv]
      simp only [List.foldl_cons, List.foldl_nil]
      rw [decDigit_toNat (Nat.mod_lt n (by omega))]
      omega

theorem digitsVal_decRepr (n : Nat) : digitsVal (decRepr n) = n := by
  apply digitsVal_decReprAux
  calc n < 10 ^ n := Nat.lt_pow_self (by omega) n
    _ ≤ 10 ^ (n + 1) := Nat.pow_le_pow_right (by omega) (by omega)

theorem digit_not_ws {c : Char} (h : c.isDigit = true) : isJsWhitespace c = false := by
  simp only [Char.isDigit, Bool.and_eq_true, decide_eq_true_eq] at h
  obtain ⟨h1, h2⟩ := h
  simp only [isJsWhitespace, Bool.or_eq_false_iff, decide_eq_false_iff_not]
  refine ⟨⟨⟨⟨⟨?_, ?_⟩, ?_⟩, ?_⟩, ?_⟩, ?_⟩ <;> rintro rfl <;> revert h1 <;> decide

theorem jsParseIntDec_decRepr (n : Nat) : jsParseIntDec (decRepr n) = some ((n : Int)) := by
  have hall := decRepr_all_digits n
  have hne := decRepr_ne_nil n
  obtain ⟨c, rest, hd⟩ : ∃ c rest, decRepr n = c :: rest := by
    cases h : decRepr n with
    | nil => exact absurd h hne
    | cons c rest => exact ⟨c, rest, rfl⟩
  have hcdig : c.isDigit = true := hall c (hd ▸ List.mem_cons_self c rest)
  have hdrop : List.dropWhile isJsWhitespace (c :: rest) = c :: rest := by
    rw [List.dropWhile_cons, digit_not_ws hcdig]
    simp
  have htake : List.takeWhile Char.isDigit (decRepr n) = decRepr n :=
    List.takeWhile_eq_self_iff.mpr hall
  have hc1 : c ≠ '-' := by rintro rfl; simp [Char.isDigit] at hcdig
  have hc2 : c ≠ '+' := by rintro rfl; simp [Char.isDigit] at hcdig
  have hpref : digitsPrefixVal (decRepr n) = some n := by
    rw [digitsPrefixVal.eq_def, htake, hd]
    show some (digitsVal (c :: rest)) = some n
    rw [← hd, digitsVal_decRepr]
  rw [hd, jsParseIntDec.eq_def, hdrop]
  split
  · next heq => exact absurd (List.cons.inj heq).1 hc1
  · next heq => exact absurd (List.cons.inj heq).1 hc2
  · rw [← hd, hpref]
    rfl

/-! ## HMAC-SHA256

Executable embedding of `crypto.createHmac('sha256', secret).update(msg).digest('hex')`
(FIPS 180-4 SHA-256 and RFC 2104 HMAC).  Bytes are `Nat` below 256, 32-bit
words are `Nat` reduced mod `2^32`. -/

/-- Truncate to a 32-bit word. -/
def w32 (n : Nat) : Nat := n % 4294967296

/-- 32-bit modular addition. -/
def add32 (a b : Nat) : Nat := (a + b) % 4294967296

/-- Right rotation of a 32-bit word. -/
def rotr32 (n x : Nat) : Nat := w32 ((x >>> n) ||| (x <<< (32 - n)))

/-- Bitwise complement of a 32-bit word. -/
def not32 (x : Nat) : Nat := x ^^^ 4294967295

def ssig0 (x : Nat) : Nat := (rotr32 7 x) ^^^ (rotr32 18 x) ^^^ (x >>> 3)

def ssig1 (x : Nat) : Nat := (rotr32 17 x) ^^^ (rotr32 19 x) ^^^ (x >>> 10)

def bsig0 (x : Nat) : Nat := (rotr32 2 x) ^^^ (rotr32 13 x) ^^^ (rotr32 22 x)

def bsig1 (x : Nat) : Nat := (rotr32 6 x) ^^^ (rotr32 11 x) ^^^ (rotr32 25 x)

def chFn (x y z : Nat) : Nat := (x &&& y) ^^^ ((not32 x) &&& z)

def majFn (x y z : Nat) : Nat := (x &&& y) ^^^ (x &&& z) ^^^ (y &&& z)

/-- The SHA-256 round constants (FIPS 180-4, written in decimal). -/
def sha256K : List Nat :=
  [1116352408, 1899447441, 3049323471, 3921009573, 961987163,
   1508970993, 2453635748, 2870763221, 3624381080, 310598401,
   607225278, 1426881987, 1925078388, 2162078206, 2614888103,
   3248222580, 3835390401, 4022224774, 264347078, 604807628,
   770255983, 1249150122, 1555081692, 1996064986, 2554220882,
   2821834349, 2952996808, 3210313671, 3336571891, 3584528711,
   113926993, 338241895, 666307205, 773529912, 1294757372,
   1396182291, 1695183700, 1986661051, 2177026350, 2456956037,
   2730485921, 2820302411, 3259730800, 3345764771, 3516065817,
   3600352804, 4094571909, 275423344, 430227734, 506948616,
   659060556, 883997877, 958139571, 1322822218, 1537002063,
   1747873779, 1955562222, 2024104815, 2227730452, 2361852424,
   2428436474, 2756734187, 3204031479, 3329325298]

/-- The SHA-256 initial hash value (FIPS 180-4, written in decimal). -/
def sha256H0 : List Nat :=
  [1779033703, 3144134277, 1013904242, 2773480762,
   1359893119, 2600822924, 528734635, 1541459225]

/-- Big-endian 8-byte encoding of a length in bits. -/
def be64 (n : Nat) : List Nat :=
  [n >>> 56 % 256, n >>> 48 % 256, n >>> 40 % 256, n >>> 32 % 256,
   n >>> 24 % 256, n >>> 16 % 256, n >>> 8 % 256, n % 256]

/-- SHA-256 padding: append `0x80`, zeros to 56 mod 64, then the bit length. -/
def sha256Pad (msg : List Nat) : List Nat :=
  let len := msg.length
  let zeros := (119 - len % 64) % 64
  msg ++ 128 :: List.replicate zeros 0 ++ be64 (8 * len)

/-- Split into 64-byte blocks, with structural fuel so that the kernel can
evaluate it; `chunk64` supplies enough fuel. -/
def chunk64Aux : Nat → List Nat → List (List Nat)
  | 0, _ => []
  | fuel + 1, l => if l = [] then [] else l.take 64 :: chunk64Aux fuel (l.drop 64)

/-- Split a byte list into 64-byte blocks. -/
def chunk64 (l : List Nat) : List (List Nat) := chunk64Aux (l.length + 1) l

/-- Four consecutive bytes as one big-endian 32-bit word. -/
def bytesToWords : List Nat → List Nat
  | b0 :: b1 :: b2 :: b3 :: rest =>
    (((b0 * 256 + b1) * 256 + b2) * 256 + b3) :: bytesToWords rest
  | _ => []

/-- One extension step of the message schedule: append
`σ1(w[t-2]) + w[t-7] + σ0(w[t-15]) + w[t-16]`. -/
def scheduleStep (w : List Nat) : List Nat :=
  w ++ [add32 (add32 (ssig1 (w.getD (w.length - 2) 0)) (w.getD (w.length - 7) 0))
          (add32 (ssig0 (w.getD (w.length - 15) 0)) (w.getD (w.length - 16) 0))]

/-- One SHA-256 round on the working variables. -/
def sha256Round (st : Nat × Nat × Nat × Nat × Nat × Nat × Nat × Nat) (kw : Nat × Nat) :
    Nat × Nat × Nat × Nat × Nat × Nat × Nat × Nat :=
  match st, kw with
  | (a, b, c, d, e, f, g, h), (k, w) =>
    let t1 := add32 (add32 (add32 h (bsig1 e)) (add32 (chFn e f g) k)) w
    let t2 := add32 (bsig0 a) (majFn a b c)
    (add32 t1 t2, a, b, c, add32 d t1, e, f, g)

/-- SHA-256 compression of one 64-byte block into the hash state. -/
def sha256Compress (hs : List Nat) (block : List Nat) : List Nat :=
  let w := scheduleStep^[48] (bytesToWords block)
  let h0 := hs.getD 0 0
  let h1 := hs.getD 1 0
  let h2 := hs.getD 2 0
  let h3 := hs.getD 3 0
  let h4 := hs.getD 4 0
  let h5 := hs.getD 5 0
  let h6 := hs.getD 6 0
  let h7 := hs.getD 7 0
  match (sha256K.zip w).foldl sha256Round (h0, h1, h2, h3, h4, h5, h6, h7) with
  | (a, b, c, d, e, f, g, h) =>
    [add32 h0 a, add32 h1 b, add32 h2 c, add32 h3 d,
     add32 h4 e, add32 h5 f, add32 h6 g, add32 h7 h]

/-- A 32-bit word as four big-endian bytes. -/
def wordToBytes (n : Nat) : List Nat :=
  [n >>> 24 % 256, n >>> 16 % 256, n >>> 8 % 256, n % 256]

/-- SHA-256 of a byte list, as 32 bytes. -/
def sha256 (msg : List Nat) : List Nat :=
  ((chunk64 (sha256Pad msg)).foldl sha256Compress sha256H0).foldr
    (fun wrd acc => wordToBytes wrd ++ acc) []

/-- RFC 2104 HMAC-SHA256 over byte lists. -/
def hmacSha256 (key msg : List Nat) : List Nat :=
  let k0 := if 64 < key.length then sha256 key else key
  let k := k0 ++ List.replicate (64 - k0.length) 0
  let ipad := k.map (fun b => b ^^^ 0x36)
  let opad := k.map (fun b => b ^^^ 0x5c)
  sha256 (opad ++ sha256 (ipad ++ msg))

/-- Lower-case hex character for `n % 16`. -/
def hexChar (n : Nat) : Char :=
  if n % 16 < 10 then Char.ofNat (48 + n % 16) else Char.ofNat (87 + n % 16)

/-- Two lower-case hex characters for one byte. -/
def byteHex (b : Nat) : List Char := [hexChar (b / 16), hexChar b]

/-- `digest('hex')`: the byte list as a lower-case hex string. -/
def hexDigest (bs : List Nat) : String :=
  String.mk ((bs.map byteHex).foldr (· ++ ·) [])

/-- The bytes of an ASCII string, one byte per character (all strings the
CSRF engine signs — decimal timestamps — and all secrets in the repository
are ASCII). -/
def asciiBytes (s : String) : List Nat := s.data.map Char.toNat

/-- `crypto.createHmac('sha256', secret).update(msg).digest('hex')`. -/
def hmacHex (secret msg : String) : String :=
  hexDigest (hmacSha256 (asciiBytes secret) (asciiBytes msg))

theorem hexChar_ne_dot (n : Nat) : hexChar n ≠ '.' := by
  have hm : n % 16 < 16 := Nat.mod_lt n (by omega)
  rw [hexChar]
  revert hm
  generalize n % 16 = m
  intro hm
  interval_cases m <;> decide

theorem dot_not_mem_hexDigest (bs : List Nat) : '.' ∉ (hexDigest bs).data := by
  simp only [hexDigest]
  induction bs with
  | nil => simp
  | cons b rest ih =>
    simp only [List.map_cons, List.foldr_cons, List.mem_append, not_or]
    refine ⟨?_, ih⟩
    simp only [byteHex, List.mem_cons, List.mem_singleton, not_or]
    exact ⟨fun h => hexChar_ne_dot (b / 16) h.symm,
           fun h => hexChar_ne_dot b h.symm, by simp⟩

theorem hexDigest_data_ne_nil_of_ne {bs : List Nat} (h : bs ≠ []) :
    (hexDigest bs).data ≠ [] := by
  cases bs with
  | nil => exact absurd rfl h
  | cons b rest => simp [hexDigest, byteHex]

theorem foldl_sha256Compress_length (blocks : List (List Nat)) (hs : List Nat)
    (h : hs.length = 8) : (blocks.foldl sha256Compress hs).length = 8 := by
  induction blocks generalizing hs with
  | nil => exact h
  | cons b rest ih =>
    apply ih
    simp [sha256Compress]


theorem sha256_ne_nil (msg : List Nat) : sha256 msg ≠ [] := by
  have h8 := foldl_sha256Compress_length (chunk64 (sha256Pad msg)) sha256H0 (by rfl)
  rw [sha256]
  cases hc : (chunk64 (sha256Pad msg)).foldl sha256Compress sha256H0 with
  | nil => rw [hc] at h8; simp at h8
  | cons w rest => simp [wordToBytes]

theorem hmacHex_has_no_dot (secret msg : String) : '.' ∉ (hmacHex secret msg).data :=
  dot_not_mem_hexDigest _

theorem hmacHex_data_ne_nil (secret msg : String) : (hmacHex secret msg).data ≠ [] :=
  hexDigest_data_ne_nil_of_ne (sha256_ne_nil _)

/-! ## Shared constants and typed cookie/header helpers
(`server/src/lib/constants.ts`) -/

def CSRF_COOKIE : String := "XSRF-TOKEN"

def CSRF_HEADER : String := "x-xsrf-token"

/-- CSRF cookie max age (1 hour), in milliseconds. -/
def CSRF_MAX_AGE_MS : Nat := 60 * 60 * 1000

def LOCKOUT_MAX_ATTEMPTS : Nat := 5

def LOCKOUT_WINDOW_MINUTES : Nat := 15

/-- An Express header value: a string or an array of strings (`cookies` and
`headers` maps are modelled as partial maps from names to values; absent
entries are `undefined`). -/
inductive HeaderValue where
  | str (s : String)
  | arr (l : List String)
deriving DecidableEq

/-- JS `s.trim()` (the ASCII whitespace cases). -/
def jsTrim (s : String) : String :=
  String.mk (((s.data.dropWhile isJsWhitespace).reverse.dropWhile isJsWhitespace).reverse)

/-- JS `s.toLowerCase()` (per character). -/
def jsToLower (s : String) : String := String.mk (s.data.map Char.toLower)

/-- `getStringCookie`: `undefined` when the cookie is missing, not a string
(not modelled: cookie values are strings here), or whitespace-only. -/
def getStringCookie (cookies : String → Option String) (name : String) : Option String :=
  match cookies name with
  | some v => if jsTrim v = "" then none else some v
  | none => none

/-- `getStringHeader`: a string value must have non-blank trim; an array
value yields its first element (possibly empty); otherwise `undefined`. -/
def getStringHeader (headers : String → Option HeaderValue) (name : String) : Option String :=
  match headers (jsToLower name) with
  | some (.str v) => if jsTrim v ≠ "" then some v else none
  | some (.arr l) =>
    match l with
    | v :: _ => some v
    | [] => none
  | none => none

/-- JS truthiness of a `string | undefined`: `undefined` and `""` are falsy. -/
def truthy : Option String → Bool
  | none => false
  | some s => s ≠ ""

/-! ## CSRF token engine (`server/src/middleware/csrf.ts`) -/

/-- Token expiry time in milliseconds (1 hour). -/
def CSRF_TOKEN_EXPIRY_MS : Nat := CSRF_MAX_AGE_MS

/-- `generateCsrfToken`: `timestamp.signature` where `timestamp` is
`Date.now().toString()` and `signature` is the HMAC-SHA256 hex digest of
the timestamp string under `config.csrfSecret`. -/
def generateCsrfToken (secret : String) (nowMs : Nat) : String :=
  let timestamp := String.mk (decRepr nowMs)
  let signature := hmacHex secret timestamp
  timestamp ++ "." ++ signature

/-- The body of `verifySignedToken` after the two-part split: reject empty
parts (`!timestamp || !signature`), parse with `parseInt(_, 10)` (the
`none` arm is the `isNaN(tokenAge)` case), reject a token age outside
`[0, CSRF_TOKEN_EXPIRY_MS]`, then compare the signature byte-wise against
the recomputed HMAC (`timingSafeEqual` after a `Buffer` length check —
equivalent to equality of the character lists). -/
def verifyParts (secret : String) (nowMs : Nat) (timestamp signature : List Char) : Bool :=
  if timestamp.isEmpty || signature.isEmpty then false
  else if (jsParseIntDec timestamp).isNone then false
  else if (nowMs : Int) - (jsParseIntDec timestamp).getD 0 < 0
      || (nowMs : Int) - (jsParseIntDec timestamp).getD 0 > (CSRF_TOKEN_EXPIRY_MS : Int) then
    false
  else signature = (hmacHex secret (String.mk timestamp)).data

/-- `verifySignedToken`: split on `'.'`, requiring exactly two parts, then
validate them with `verifyParts`. -/
def verifySignedToken (secret : String) (nowMs : Nat) (token : String) : Bool :=
  match splitChar '.' token.data with
  | [timestamp, signature] => verifyParts secret nowMs timestamp signature
  | _ => false

/-- Outcome of an Express middleware: pass to the next handler, or
short-circuit with a status code and error body. -/
inductive MwResult where
  | next
  | rejected (status : Nat) (error : String)
deriving DecidableEq

def safeMethods : List String := ["GET", "HEAD", "OPTIONS"]

/-- `validateCsrf` middleware: skip safe methods; require a header token;
double-submit comparison when a cookie token is present, signature
verification of the header token otherwise. -/
def validateCsrf (secret : String) (nowMs : Nat) (method : String)
    (cookies : String → Option String) (headers : String → Option HeaderValue) : MwResult :=
  if method ∈ safeMethods then .next
  else
    let cookieToken := getStringCookie cookies CSRF_COOKIE
    let headerToken := getStringHeader headers CSRF_HEADER
    if !truthy headerToken then .rejected 403 "CSRF token missing"
    else if truthy cookieToken then
      -- Buffer length check + timingSafeEqual = byte equality of the tokens
      if cookieToken.getD "" = headerToken.getD "" then .next
      else .rejected 403 "CSRF token mismatch"
    else
      if verifySignedToken secret nowMs (headerToken.getD "") then .next
      else .rejected 403 "Invalid or expired CSRF token"

/-! ## Rate limiting (`server/src/middleware/rateLimit.ts`) -/

/-- One entry of the module-level `inMemoryStore` map. -/
structure RLEntry where
  count : Nat
  reset : Nat
deriving DecidableEq

/-- The in-memory store: key to entry, absent keys `undefined`. -/
def MemStore : Type := String → Option RLEntry

/-- Decision record returned by `inMemoryRateLimit`
(`resetIn` is non-negative in every branch, so `Nat`). -/
structure RLDecision where
  allowed : Bool
  count : Nat
  resetIn : Nat
deriving DecidableEq

def MemStore.set (store : MemStore) (key : String) (e : RLEntry) : MemStore :=
  fun k => if k = key then some e else store k

/-- The existing-entry branch of `inMemoryRateLimit`: an expired entry
restarts the window at count 1; a live one is incremented (`entry.count++`)
and compared against `maxRequests`. -/
def inMemoryRateLimitHit (store : MemStore) (key : String)
    (nowMs windowMs maxRequests : Nat) (entry : RLEntry) : RLDecision × MemStore :=
  if entry.reset < nowMs then
    (⟨true, 1, windowMs⟩, store.set key ⟨1, nowMs + windowMs⟩)
  else if maxRequests < entry.count + 1 then
    (⟨false, entry.count + 1, entry.reset - nowMs⟩,
     store.set key ⟨entry.count + 1, entry.reset⟩)
  else
    (⟨true, entry.count + 1, entry.reset - nowMs⟩,
     store.set key ⟨entry.count + 1, entry.reset⟩)

/-- `inMemoryRateLimit`: a missing key starts a fresh window at count 1;
an existing entry goes through `inMemoryRateLimitHit`. -/
def inMemoryRateLimit (store : MemStore) (key : String)
    (nowMs windowMs maxRequests : Nat) : RLDecision × MemStore :=
  match store key with
  | some entry => inMemoryRateLimitHit store key nowMs windowMs maxRequests entry
  | none => (⟨true, 1, windowMs⟩, store.set key ⟨1, nowMs + windowMs⟩)

/-- The `x-forwarded-for` header as Express exposes it. -/
inductive FwdHeader where
  | missing
  | str (s : String)
  | arr (l : List String)

/-- `getClientIp`: first comma-separated entry of `x-forwarded-for`
(trimmed), or the first array element, or the socket address,
with `"unknown"` fallbacks. -/
def getClientIp (fwd : FwdHeader) (remoteAddress : Option String) : String :=
  match fwd with
  | .str s => (((splitChar ',' s.data).head?.map (fun l => (String.mk l).trim)).getD "unknown")
  | .arr l => l.headD "unknown"
  | .missing => remoteAddress.getD "unknown"

/-- The rate-limit key: `rl:${req.path}:${ip}`. -/
def rateLimitKey (path ip : String) : String := "rl:" ++ path ++ ":" ++ ip

/-- JS `Math.ceil(n / 1000)` for a natural `n`. -/
def ceilDiv1000 (n : Nat) : Nat := (n + 999) / 1000

/-- Response-relevant effects of the rate-limit middleware: either `next()`
with the two `X-RateLimit-*` headers, or a 429 with `Retry-After`. -/
structure RLResponse where
  status : Option Nat
  retryAfter : Option Nat
  limitHeader : Nat
  remainingHeader : Nat
deriving DecidableEq

/-! ### Redis-backed counter store (`server/src/lib/ecs.ts`, Redis part)

`InMemoryRedis` keeps `{value, expiresAt}` per key; `incr` restarts an
absent or expired key at 1 with a 60-second default expiry, and
`expire` rewrites `expiresAt`.  Values written by `incr` are numerals, so
they are modelled as `Nat` directly. -/

structure RedisEntry where
  value : Nat
  expiresAt : Nat
deriving DecidableEq

def RedisStore : Type := String → Option RedisEntry

def RedisStore.set (store : RedisStore) (key : String) (e : RedisEntry) : RedisStore :=
  fun k => if k = key then some e else store k

/-- `incr`: parse-and-increment a live entry, else restart at 1 with the
60-second default expiry. -/
def redisIncr (store : RedisStore) (key : String) (nowMs : Nat) : Nat × RedisStore :=
  match store key with
  | some e =>
    if nowMs < e.expiresAt then
      (e.value + 1, store.set key ⟨e.value + 1, e.expiresAt⟩)
    else
      (1, store.set key ⟨1, nowMs + 60000⟩)
  | none => (1, store.set key ⟨1, nowMs + 60000⟩)

/-- `expire(key, seconds)`: reset the expiry of an existing key. -/
def redisExpire (store : RedisStore) (key : String) (nowMs seconds : Nat) : RedisStore :=
  match store key with
  | some e => store.set key ⟨e.value, nowMs + seconds * 1000⟩
  | none => store

/-- `del(key)`. -/
def redisDel (store : RedisStore) (key : String) : RedisStore :=
  fun k => if k = key then none else store k

/-- `incrementRateLimit`: increment, then set the expiry only when the
count is 1 (the first increment of a window). -/
def incrementRateLimit (store : RedisStore) (key : String)
    (nowMs windowSeconds : Nat) : Nat × RedisStore :=
  let (count, s1) := redisIncr store key nowMs
  if count = 1 then (count, redisExpire s1 key nowMs windowSeconds) else (count, s1)

/-- `resetRateLimit`: delete the counter key. -/
def resetRateLimit (store : RedisStore) (key : String) : RedisStore :=
  redisDel store key

/-- Remaining lifetime of a Redis key in milliseconds. -/
def redisTTLms (store : RedisStore) (key : String) (nowMs : Nat) : Nat :=
  match store key with
  | some e => e.expiresAt - nowMs
  | none => 0

/-! ### The `createRateLimiter` middleware -/

/-- The Redis branch of the middleware (`config.redisUrl` set and
`incrementRateLimit` succeeded): deny with `Retry-After = windowSeconds`
when the count exceeds the limit. -/
def rateLimiterRedisPath (store : RedisStore) (key : String)
    (nowMs windowMs maxRequests : Nat) : RLResponse × RedisStore :=
  if maxRequests < (incrementRateLimit store key nowMs (ceilDiv1000 windowMs)).1 then
    (⟨some 429, some (ceilDiv1000 windowMs), maxRequests, 0⟩,
     (incrementRateLimit store key nowMs (ceilDiv1000 windowMs)).2)
  else
    (⟨none, none, maxRequests,
      maxRequests - (incrementRateLimit store key nowMs (ceilDiv1000 windowMs)).1⟩,
     (incrementRateLimit store key nowMs (ceilDiv1000 windowMs)).2)

/-- The in-memory branch of the middleware (no `config.redisUrl`, or the
Redis call threw): deny with `Retry-After = Math.ceil(resetIn / 1000)`. -/
def rateLimiterMemoryPath (store : MemStore) (key : String)
    (nowMs windowMs maxRequests : Nat) : RLResponse × MemStore :=
  if !(inMemoryRateLimit store key nowMs windowMs maxRequests).1.allowed then
    (⟨some 429,
      some (ceilDiv1000 (inMemoryRateLimit store key nowMs windowMs maxRequests).1.resetIn),
      maxRequests, 0⟩,
     (inMemoryRateLimit store key nowMs windowMs maxRequests).2)
  else
    (⟨none, none, maxRequests,
      maxRequests - (inMemoryRateLimit store key nowMs windowMs maxRequests).1.count⟩,
     (inMemoryRateLimit store key nowMs windowMs maxRequests).2)

/-- The full `createRateLimiter` handler: try Redis when configured, fall
back to the in-memory store when the Redis call throws. -/
def rateLimitMiddleware (windowMs maxRequests : Nat) (redisUrl : Bool)
    (redis : Except Unit RedisStore) (mem : MemStore) (key : String) (nowMs : Nat) :
    RLResponse × Except Unit RedisStore × MemStore :=
  if redisUrl then
    match redis with
    | .ok rstore =>
      ((rateLimiterRedisPath rstore key nowMs windowMs maxRequests).1,
       .ok (rateLimiterRedisPath rstore key nowMs windowMs maxRequests).2, mem)
    | .error e =>
      ((rateLimiterMemoryPath mem key nowMs windowMs maxRequests).1, .error e,
       (rateLimiterMemoryPath mem key nowMs windowMs maxRequests).2)
  else
    ((rateLimiterMemoryPath mem key nowMs windowMs maxRequests).1, redis,
     (rateLimiterMemoryPath mem key nowMs windowMs maxRequests).2)

/-! ## Auth events and account lockout
(`services/authEvent.service.ts`, `routes/auth.ts` POST /signin) -/

/-- The Prisma `AuthEventType` enum. -/
inductive AuthEventType where
  | signIn
  | signUp
  | signOutEvent
  | signInFailed
deriving DecidableEq

/-- One row of the `auth_events` table (the columns the lockout uses). -/
structure AuthEvent where
  email : String
  eventType : AuthEventType
  createdAt : Nat
  success : Bool
deriving DecidableEq

/-- The database: a list of auth events, or unreachable. -/
def Db : Type := Except Unit (List AuthEvent)

/-- `prisma.authEvent.count({where: {email, eventType: SIGN_IN_FAILED,
createdAt: {gte: since}}})`. -/
def countFailedAttempts (events : List AuthEvent) (email : String) (since : Nat) : Nat :=
  (events.filter fun e =>
    e.email = email ∧ e.eventType = .signInFailed ∧ since ≤ e.createdAt).length

/-- `authEventService.getFailedAttempts`: the count query, with errors
caught and turned into 0 (fail open). -/
def getFailedAttempts (db : Db) (email : String) (since : Nat) : Nat :=
  match db with
  | .ok events => countFailedAttempts events email since
  | .error _ => 0

/-- `authEventService.log`: append a row; a failure to log never throws. -/
def logAuthEvent (db : Db) (e : AuthEvent) : Db :=
  match db with
  | .ok events => .ok (events ++ [e])
  | .error err => .error err

/-- Outcome of the POST /signin handler after body validation:
locked out (429), session issued, or credential failure (thrown to the
error handler as a 4xx application error). -/
inductive SignInResult where
  | rejected429 (error : String)
  | signedIn
  | credentialError
deriving DecidableEq

/-- The literal lockout response body message
(independent of the failure count). -/
def lockedMessage : String :=
  "Account temporarily locked. Please try again in " ++
    String.mk (decRepr LOCKOUT_WINDOW_MINUTES) ++ " minutes."

/-- POST /signin after schema validation: check the lockout window BEFORE
credential verification; log SIGN_IN on success and SIGN_IN_FAILED on a
credential failure (`credentialsOk` is what `authService.signIn` would
decide for this request's credentials). -/
def signinHandler (db : Db) (email : String) (nowMs : Nat) (credentialsOk : Bool) :
    SignInResult × Db :=
  let lockoutWindowStart := nowMs - LOCKOUT_WINDOW_MINUTES * 60 * 1000
  let failedAttempts := getFailedAttempts db email lockoutWindowStart
  if LOCKOUT_MAX_ATTEMPTS ≤ failedAttempts then
    (.rejected429 lockedMessage, db)
  else if credentialsOk then
    (.signedIn, logAuthEvent db ⟨email, .signIn, nowMs, true⟩)
  else
    (.credentialError, logAuthEvent db ⟨email, .signInFailed, nowMs, false⟩)

/-- A sequence of sign-in attempts `(time, credentialsOk)`, threading the
event store. -/
def runSignIns (db : Db) (email : String) : List (Nat × Bool) → List SignInResult × Db
  | [] => ([], db)
  | (t, ok) :: rest =>
    ((signinHandler db email t ok).1 ::
        (runSignIns (signinHandler db email t ok).2 email rest).1,
     (runSignIns (signinHandler db email t ok).2 email rest).2)

/-! ## Administrative unlock (`routes/users.ts` POST /:id/unlock) -/

/-- The three key strings the unlock endpoint computes for a user's email. -/
def unlockKeys (email : String) : List String :=
  ["rl:/api/auth/signin:" ++ email, "rl:/api/auth/signup:" ++ email,
   "lockout:" ++ email]

/-- The shared mutable state the unlock endpoint can touch: the Redis
counter store and the auth-events database. -/
structure World where
  redis : RedisStore
  db : Db

/-- The unlock handler body: `resetRateLimit` (a Redis `DEL`) on each of
the three keys.  The auth-events table is not touched. -/
def unlockHandler (w : World) (email : String) : World :=
  { w with redis := (unlockKeys email).foldl resetRateLimit w.redis }

/-! ## Shared test fixtures and helper lemmas -/

/-- The CSRF secret the repository's unit tests configure
(`__tests__/middleware/csrf.test.ts`). -/
def testCsrfSecret : String := "test-csrf-secret-for-unit-tests-minimum-32-chars"

/-- A cookie map carrying only the CSRF cookie. -/
def singleCookie (s : String) : String → Option String :=
  fun n => if n = CSRF_COOKIE then some s else none

/-- A header map carrying only the CSRF header. -/
def singleHeader (s : String) : String → Option HeaderValue :=
  fun n => if n = CSRF_HEADER then some (.str s) else none

theorem dot_not_mem_decRepr (n : Nat) : '.' ∉ decRepr n := fun h => by
  have := decRepr_all_digits n '.' h
  simp [Char.isDigit] at this

/-- `(a ++ "." ++ b).split('.')` recovers the two dot-free parts. -/
theorem splitChar_token {a b : String} (ha : '.' ∉ a.data) (hb : '.' ∉ b.data) :
    splitChar '.' ((a ++ "." ++ b).data) = [a.data, b.data] := by
  have : (a ++ "." ++ b).data = a.data ++ '.' :: b.data := by
    simp [String.data_append]
  rw [this]
  exact splitChar_pair ha hb

theorem getStringCookie_ne_empty {cookies : String → Option String} {name v : String}
    (h : getStringCookie cookies name = some v) : v ≠ "" := by
  simp only [getStringCookie] at h
  split at h
  · next w heq =>
    split at h
    · exact absurd h (by simp)
    · next htrim =>
      obtain rfl : w = v := Option.some.inj h
      rintro rfl
      exact htrim (by decide)
  · exact absurd h (by simp)

/-- C2 helper: the non-safe-method guard evaluated away. -/
theorem validateCsrf_mutating {secret : String} {nowMs : Nat} {method : String}
    {cookies : String → Option String} {headers : String → Option HeaderValue}
    (hm : method ∉ safeMethods) :
    validateCsrf secret nowMs method cookies headers =
      (if !truthy (getStringHeader headers CSRF_HEADER) then
        .rejected 403 "CSRF token missing"
      else if truthy (getStringCookie cookies CSRF_COOKIE) then
        if (getStringCookie cookies CSRF_COOKIE).getD "" =
            (getStringHeader headers CSRF_HEADER).getD "" then .next
        else .rejected 403 "CSRF token mismatch"
      else
        if verifySignedToken secret nowMs ((getStringHeader headers CSRF_HEADER).getD "")
          then .next
        else .rejected 403 "Invalid or expired CSRF token") := by
  rw [validateCsrf, if_neg hm]

/-- C2: for every state-changing request, CSRF validation follows exactly
this precedence: no (truthy) header token → rejected with the
missing-token error regardless of cookies; header and cookie tokens
present → accepted iff they are equal; header token only → accepted iff
signature verification of the header token succeeds. -/
theorem c2_csrf_precedence (secret : String) (nowMs : Nat) (method : String)
    (cookies : String → Option String) (headers : String → Option HeaderValue)
    (hm : method ∉ safeMethods) :
    (truthy (getStringHeader headers CSRF_HEADER) = false →
      validateCsrf secret nowMs method cookies headers =
        .rejected 403 "CSRF token missing")
    ∧ (∀ ht ct, getStringHeader headers CSRF_HEADER = some ht → ht ≠ "" →
        getStringCookie cookies CSRF_COOKIE = some ct →
        (validateCsrf secret nowMs method cookies headers = .next ↔ ht = ct))
    ∧ (∀ ht, getStringHeader headers CSRF_HEADER = some ht → ht ≠ "" →
        getStringCookie cookies CSRF_COOKIE = none →
        (validateCsrf secret nowMs method cookies headers = .next ↔
          verifySignedToken secret nowMs ht = true)) := by
  have htr : ∀ s : String, s ≠ "" → truthy (some s) = true := by
    intro s hs
    simp [truthy, hs]
  refine ⟨?_, ?_, ?_⟩
  · intro hh
    rw [validateCsrf_mutating hm, hh]
    rfl
  · intro ht ct hh hht hc
    have hct : ct ≠ "" := getStringCookie_ne_empty hc
    rw [validateCsrf_mutating hm, hh, hc, htr ht hht, htr ct hct]
    simp only [Bool.not_true, Bool.false_eq_true, if_false, if_true, Option.getD_some]
    by_cases he : ht = ct
    · rw [if_pos he.symm]
      simp [he]
    · rw [if_neg (fun x => he x.symm)]
      exact iff_of_false (by simp) he
  · intro ht hh hht hc
    rw [validateCsrf_mutating hm, hh, hc, htr ht hht]
    simp only [Bool.not_true, Bool.false_eq_true, if_false, truthy, Option.getD_some]
    by_cases hv : verifySignedToken secret nowMs ht = true
    · rw [if_pos hv]
      simp [hv]
    · rw [if_neg hv]
      exact iff_of_false (by simp) hv

/-- C2 witness: a POST with equal header and cookie tokens passes. -/
theorem c2_csrf_precedence_witness :
    validateCsrf testCsrfSecret 0 "POST" (singleCookie "tok") (singleHeader "tok") =
      MwResult.next :=
  ((c2_csrf_precedence testCsrfSecret 0 "POST" (singleCookie "tok") (singleHeader "tok")
      (by decide)).2.1 "tok" "tok" (by decide) (by decide) (by decide)).mpr rfl

/-- A non-nil list is not `isEmpty`. -/
theorem isEmpty_false_of_ne_nil {α : Type} {l : List α} (h : l ≠ []) :
    l.isEmpty = false := by
  cases l with
  | nil => exact absurd rfl h
  | cons a t => rfl

/-- Reduction of `verifySignedToken` once the split is known. -/
theorem verifySignedToken_two {token : String} {ts sig : List Char}
    (secret : String) (nowMs : Nat) (hsp : splitChar '.' token.data = [ts, sig]) :
    verifySignedToken secret nowMs token = verifyParts secret nowMs ts sig := by
  rw [verifySignedToken, hsp]

/-- C10 (amended): on the double-submit path token content is never
validated — any string with a non-blank trim carried as both the cookie
and the header token passes CSRF validation on a state-changing request,
whether or not it is a validly signed token. -/
theorem c10_double_submit_bypasses_signature (secret : String) (nowMs : Nat)
    (method : String) (s : String) (hm : method ∉ safeMethods) (hs : jsTrim s ≠ "") :
    validateCsrf secret nowMs method (singleCookie s) (singleHeader s) = .next := by
  have hsne : s ≠ "" := by rintro rfl; exact hs (by decide)
  have hck : getStringCookie (singleCookie s) CSRF_COOKIE = some s := by
    simp only [getStringCookie, singleCookie, if_pos]
    rw [if_neg hs]
  have hhd : getStringHeader (singleHeader s) CSRF_HEADER = some s := by
    have hlow : jsToLower CSRF_HEADER = CSRF_HEADER := by decide
    simp only [getStringHeader, hlow, singleHeader, if_pos]
    rw [if_pos hs]
  rw [validateCsrf_mutating hm, hhd, hck]
  have htr : truthy (some s) = true := by simp [truthy, hsne]
  rw [htr]
  simp

/-- C10 witness: a string that is not a validly signed token passes the
double-submit path. -/
theorem c10_double_submit_witness :
    verifySignedToken testCsrfSecret 0 "not-a-signed-token" = false ∧
    validateCsrf testCsrfSecret 0 "POST" (singleCookie "not-a-signed-token")
      (singleHeader "not-a-signed-token") = MwResult.next :=
  ⟨by decide, c10_double_submit_bypasses_signature testCsrfSecret 0 "POST"
    "not-a-signed-token" (by decide) (by decide)⟩

/-- C10 counterexample: the claim quantifies over every non-empty string,
but a whitespace-only token (here `" "`) is non-empty yet is stripped by
the `getStringCookie` / `getStringHeader` blank checks, so the request is
rejected as missing rather than passing. -/
theorem c10_counterexample :
    " " ≠ "" ∧
    validateCsrf testCsrfSecret 0 "POST" (singleCookie " ") (singleHeader " ") =
      MwResult.rejected 403 "CSRF token missing" := by
  exact ⟨by decide, by decide⟩

/-- C7 (amended): `verifySignedToken` returns false for every token that
does not split on `'.'` into exactly two parts; for every token whose
timestamp part has no parseable decimal prefix (`parseInt` semantics —
digits followed by trailing garbage are NOT rejected); and for every
token whose age `now - parseInt(timestamp)` is negative or exceeds the
1-hour TTL; it returns true only when, additionally, the signature part
equals the HMAC-SHA256 hex digest of the timestamp string under the
server secret. -/
theorem c7_verify_characterization (secret : String) (nowMs : Nat) (token : String) :
    ((splitChar '.' token.data).length ≠ 2 →
      verifySignedToken secret nowMs token = false)
    ∧ (∀ ts sig, splitChar '.' token.data = [ts, sig] → jsParseIntDec ts = none →
        verifySignedToken secret nowMs token = false)
    ∧ (∀ ts sig v, splitChar '.' token.data = [ts, sig] → jsParseIntDec ts = some v →
        ((nowMs : Int) - v < 0 ∨ (CSRF_TOKEN_EXPIRY_MS : Int) < (nowMs : Int) - v) →
        verifySignedToken secret nowMs token = false)
    ∧ (∀ ts sig, splitChar '.' token.data = [ts, sig] →
        verifySignedToken secret nowMs token = true →
        sig = (hmacHex secret (String.mk ts)).data) := by
  refine ⟨?_, ?_, ?_, ?_⟩
  · intro hlen
    rw [verifySignedToken]
    rcases hsp : splitChar '.' token.data with _ | ⟨a, _ | ⟨b, _ | ⟨c, rest⟩⟩⟩ <;>
      first
        | rfl
        | (exact absurd (by rw [hsp]; rfl) hlen)
  · intro ts sig hsp hparse
    rw [verifySignedToken_two secret nowMs hsp, verifyParts.eq_def]
    split
    · rfl
    · rw [hparse]
      simp
  · intro ts sig v hsp hparse hage
    rw [verifySignedToken_two secret nowMs hsp, verifyParts.eq_def]
    split
    · rfl
    · rw [hparse]
      rw [if_neg (by simp)]
      rw [if_pos (by
        simp only [Option.getD_some, Bool.or_eq_true, decide_eq_true_eq]
        rcases hage with h | h
        · exact Or.inl h
        · exact Or.inr h)]
  · intro ts sig hsp htrue
    rw [verifySignedToken_two secret nowMs hsp, verifyParts.eq_def] at htrue
    split at htrue
    · exact absurd htrue (by simp)
    · split at htrue
      · exact absurd htrue (by simp)
      · split at htrue
        · exact absurd htrue (by simp)
        · exact of_decide_eq_true htrue

/-- C7 witness: a token with three parts is rejected. -/
theorem c7_verify_characterization_witness :
    verifySignedToken testCsrfSecret 0 "a.b.c" = false :=
  (c7_verify_characterization testCsrfSecret 0 "a.b.c").1 (by decide)

/-- C7 counterexample: the timestamp part `"1000000x"` is not numeric
(it contains `'x'`), yet a token built from it with a correct signature
verifies as true at `now = 1000000`, because `parseInt` parses the digit
prefix and ignores the trailing garbage. -/
theorem c7_counterexample :
    (¬ ∀ c ∈ ("1000000x" : String).data, c.isDigit = true) ∧
    verifySignedToken testCsrfSecret 1000000
      ("1000000x" ++ "." ++ hmacHex testCsrfSecret "1000000x") = true := by
  constructor
  · decide
  · have hsp : splitChar '.'
        (("1000000x" ++ "." ++ hmacHex testCsrfSecret "1000000x").data) =
        [("1000000x" : String).data, (hmacHex testCsrfSecret "1000000x").data] :=
      splitChar_token (by decide) (hmacHex_has_no_dot _ _)
    rw [verifySignedToken_two testCsrfSecret 1000000 hsp, verifyParts.eq_def]
    have hne1 : (("1000000x" : String).data.isEmpty) = false := by decide
    have hne2 : ((hmacHex testCsrfSecret "1000000x").data).isEmpty = false :=
      isEmpty_false_of_ne_nil (hmacHex_data_ne_nil _ _)
    rw [if_neg (by rw [hne1, hne2]; simp)]
    have hparse : jsParseIntDec ("1000000x" : String).data = some 1000000 := by decide
    rw [hparse]
    rw [if_neg (by simp)]
    rw [if_neg (by decide)]
    exact decide_eq_true rfl

/-- C8: every token produced by `generateCsrfToken` verifies as true at
any time within the 1-hour TTL of its generation, and as false at any
time after the TTL has elapsed. -/
theorem c8_monotonic_expiry (secret : String) (genMs nowMs : Nat) (hg : genMs ≤ nowMs) :
    (nowMs - genMs ≤ CSRF_TOKEN_EXPIRY_MS →
      verifySignedToken secret nowMs (generateCsrfToken secret genMs) = true)
    ∧ (CSRF_TOKEN_EXPIRY_MS < nowMs - genMs →
      verifySignedToken secret nowMs (generateCsrfToken secret genMs) = false) := by
  have hsp : splitChar '.' ((generateCsrfToken secret genMs).data) =
      [decRepr genMs, (hmacHex secret (String.mk (decRepr genMs))).data] := by
    exact @splitChar_token (String.mk (decRepr genMs))
      (hmacHex secret (String.mk (decRepr genMs)))
      (dot_not_mem_decRepr genMs) (hmacHex_has_no_dot _ _)
  have hemp : ((decRepr genMs).isEmpty ||
      ((hmacHex secret (String.mk (decRepr genMs))).data).isEmpty) = false := by
    rw [isEmpty_false_of_ne_nil (decRepr_ne_nil genMs),
      isEmpty_false_of_ne_nil (hmacHex_data_ne_nil _ _)]
    rfl
  constructor
  · intro hin
    rw [verifySignedToken_two secret nowMs hsp, verifyParts.eq_def, hemp,
      jsParseIntDec_decRepr]
    rw [if_neg (by simp)]
    rw [if_neg (by simp)]
    rw [if_neg (by
      simp only [Option.getD_some, Bool.or_eq_true, decide_eq_true_eq, not_or]
      constructor <;> omega)]
    exact decide_eq_true rfl
  · intro hout
    rw [verifySignedToken_two secret nowMs hsp, verifyParts.eq_def, hemp,
      jsParseIntDec_decRepr]
    rw [if_neg (by simp)]
    rw [if_neg (by simp)]
    rw [if_pos (by
      simp only [Option.getD_some, Bool.or_eq_true, decide_eq_true_eq]
      exact Or.inr (by omega))]

/-- C8 witness: a token generated at time 0 verifies at time 1000. -/
theorem c8_monotonic_expiry_witness :
    verifySignedToken testCsrfSecret 1000 (generateCsrfToken testCsrfSecret 0) = true :=
  (c8_monotonic_expiry testCsrfSecret 0 1000 (by omega)).1 (by decide)

/-! ## Lockout theorems -/

/-- A failed sign-in event row. -/
def failEvent (email : String) (t : Nat) : AuthEvent := ⟨email, .signInFailed, t, false⟩

theorem countFailedAttempts_replicate (k : Nat) (email : String) (t since : Nat)
    (h : since ≤ t) :
    countFailedAttempts (List.replicate k (failEvent email t)) email since = k := by
  induction k with
  | zero => rfl
  | succ k ih =>
    rw [List.replicate_succ]
    rw [countFailedAttempts] at ih ⊢
    rw [List.filter_cons_of_pos (by simp [failEvent, h])]
    rw [List.length_cons, ih]

theorem signinHandler_locked {evs : List AuthEvent} {email : String} {nowMs : Nat}
    (credentialsOk : Bool)
    (h : LOCKOUT_MAX_ATTEMPTS ≤
      countFailedAttempts evs email (nowMs - LOCKOUT_WINDOW_MINUTES * 60 * 1000)) :
    signinHandler (.ok evs) email nowMs credentialsOk =
      (.rejected429 lockedMessage, .ok evs) := by
  simp only [signinHandler, getFailedAttempts]
  rw [if_pos h]

theorem signinHandler_open {evs : List AuthEvent} {email : String} {nowMs : Nat}
    (credentialsOk : Bool)
    (h : countFailedAttempts evs email (nowMs - LOCKOUT_WINDOW_MINUTES * 60 * 1000) <
      LOCKOUT_MAX_ATTEMPTS) :
    signinHandler (.ok evs) email nowMs credentialsOk =
      if credentialsOk then (.signedIn, .ok (evs ++ [⟨email, .signIn, nowMs, true⟩]))
      else (.credentialError, .ok (evs ++ [⟨email, .signInFailed, nowMs, false⟩])) := by
  simp only [signinHandler, getFailedAttempts, logAuthEvent]
  rw [if_neg (by omega)]

theorem runSignIns_append (db : Db) (email : String) (l1 l2 : List (Nat × Bool)) :
    runSignIns db email (l1 ++ l2) =
      ((runSignIns db email l1).1 ++
        (runSignIns (runSignIns db email l1).2 email l2).1,
       (runSignIns (runSignIns db email l1).2 email l2).2) := by
  induction l1 generalizing db with
  | nil => simp [runSignIns]
  | cons p rest ih =>
    obtain ⟨t, ok⟩ := p
    simp only [List.cons_append, runSignIns, List.append_eq]
    rw [ih ((signinHandler db email t ok).2)]

theorem runSignIns_failures (email : String) (t : Nat) :
    ∀ k j, j + k ≤ LOCKOUT_MAX_ATTEMPTS →
    runSignIns (.ok (List.replicate j (failEvent email t))) email
        (List.replicate k (t, false)) =
      (List.replicate k .credentialError,
       .ok (List.replicate (j + k) (failEvent email t))) := by
  intro k
  induction k with
  | zero => intro j _; simp [runSignIns]
  | succ k ih =>
    intro j hjk
    have hstep : signinHandler (.ok (List.replicate j (failEvent email t))) email t false =
        (.credentialError,
         .ok (List.replicate j (failEvent email t) ++ [⟨email, .signInFailed, t, false⟩])) := by
      rw [signinHandler_open false
        (by rw [countFailedAttempts_replicate j email t _ (Nat.sub_le t _)]; omega)]
      rfl
    have hrep : List.replicate j (failEvent email t) ++ [⟨email, .signInFailed, t, false⟩] =
        List.replicate (j + 1) (failEvent email t) := by
      rw [List.replicate_succ' j (failEvent email t)]
      rfl
    rw [hrep] at hstep
    rw [List.replicate_succ, runSignIns, hstep]
    have h1 : j + 1 + k = j + (k + 1) := by omega
    rw [ih (j + 1) (by omega), h1]
    simp [List.replicate_succ]

/-- C1: a sign-in with at least 5 recorded failures in the 15-minute window
is rejected with a 429 carrying the fixed generic lockout message (the same
constant for every count — the count is never revealed) before credential
verification (the outcome and the event log are independent of
`credentialsOk`); a sign-in with fewer than 5 failures proceeds to
credential verification; and in a run of sign-in attempts, attempts 1–5
reach the credential check while the 6th is rejected even with a correct
password. -/
theorem c1_lockout_before_credentials (evs : List AuthEvent) (email : String)
    (nowMs : Nat) (credentialsOk : Bool) :
    (LOCKOUT_MAX_ATTEMPTS ≤
        countFailedAttempts evs email (nowMs - LOCKOUT_WINDOW_MINUTES * 60 * 1000) →
      signinHandler (.ok evs) email nowMs credentialsOk =
        (.rejected429 lockedMessage, .ok evs))
    ∧ (countFailedAttempts evs email (nowMs - LOCKOUT_WINDOW_MINUTES * 60 * 1000) <
        LOCKOUT_MAX_ATTEMPTS →
      (signinHandler (.ok evs) email nowMs credentialsOk).1 =
        if credentialsOk then .signedIn else .credentialError)
    ∧ (∀ t, (runSignIns (.ok []) email
          (List.replicate 5 (t, false) ++ [(t, true)])).1 =
        List.replicate 5 SignInResult.credentialError ++ [.rejected429 lockedMessage]) := by
  refine ⟨?_, ?_, ?_⟩
  · intro h
    exact signinHandler_locked credentialsOk h
  · intro h
    rw [signinHandler_open credentialsOk h]
    cases credentialsOk <;> rfl
  · intro t
    have hfail := runSignIns_failures email t 5 0 (by decide)
    simp only [List.replicate_zero, Nat.zero_add] at hfail
    have hlock : signinHandler (.ok (List.replicate 5 (failEvent email t))) email t true =
        (.rejected429 lockedMessage, .ok (List.replicate 5 (failEvent email t))) :=
      signinHandler_locked true
        (by rw [countFailedAttempts_replicate 5 email t _ (Nat.sub_le t _)]; decide)
    rw [runSignIns_append, hfail]
    simp only [runSignIns]
    rw [hlock]

/-- C1 witness: with exactly 5 failures on record a correct-password
sign-in is rejected; and the concrete 6-attempt run at time 0. -/
theorem c1_lockout_before_credentials_witness :
    signinHandler (.ok (List.replicate 5 (failEvent "user@example.com" 0)))
        "user@example.com" 0 true =
      (.rejected429 lockedMessage, .ok (List.replicate 5 (failEvent "user@example.com" 0)))
    ∧ (runSignIns (.ok []) "user@example.com"
          (List.replicate 5 (0, false) ++ [(0, true)])).1 =
        List.replicate 5 SignInResult.credentialError ++ [.rejected429 lockedMessage] :=
  ⟨(c1_lockout_before_credentials (List.replicate 5 (failEvent "user@example.com" 0))
      "user@example.com" 0 true).1 (by decide),
   (c1_lockout_before_credentials [] "user@example.com" 0 true).2.2 0⟩

/-- C4 (code bug): a successful sign-in does NOT reset the lockout
tracker.  With 3 failures on record, a correct-password sign-in at t = 1
succeeds, yet immediately afterwards the failure count for the identity
still reads 3 (the success path only appends a SIGN_IN row; nothing resets
or excludes earlier SIGN_IN_FAILED rows, and the Redis
`resetLockoutCounter` helper documented "after successful login" is never
called). -/
theorem c4_success_does_not_reset :
    (signinHandler (.ok (List.replicate 3 (failEvent "user@example.com" 0)))
        "user@example.com" 1 true).1 = SignInResult.signedIn
    ∧ getFailedAttempts
        (signinHandler (.ok (List.replicate 3 (failEvent "user@example.com" 0)))
          "user@example.com" 1 true).2
        "user@example.com" (2 - LOCKOUT_WINDOW_MINUTES * 60 * 1000) = 3 := by
  exact ⟨by decide, by decide⟩

/-- C3 (code bug): the administrative unlock computes exactly the three
documented key strings, but they are NOT the keys the rate limiter and the
lockout tracker actually use: the rate limiter keys by client IP (and the
Express-mounted path), never by email, so neither the mounted-path key nor
the full-path key for a request of this identity is among the unlock keys;
and the sign-in lockout reads Prisma `auth_events` rows, which the Redis
deletions of the unlock cannot touch — after 5 failures and an admin
unlock, a correct-password sign-in is still rejected as locked. -/
theorem c3_unlock_keys_mismatch :
    unlockKeys "user@example.com" =
      ["rl:/api/auth/signin:user@example.com", "rl:/api/auth/signup:user@example.com",
       "lockout:user@example.com"]
    ∧ rateLimitKey "/signin" (getClientIp (.str "203.0.113.5") none) ∉
        unlockKeys "user@example.com"
    ∧ rateLimitKey "/api/auth/signin" "203.0.113.5" ∉ unlockKeys "user@example.com"
    ∧ (∀ w : World, ∀ email : String, (unlockHandler w email).db = w.db)
    ∧ (signinHandler
          (unlockHandler
            ⟨fun _ => none, .ok (List.replicate 5 (failEvent "user@example.com" 0))⟩
            "user@example.com").db
          "user@example.com" 1 true).1 = SignInResult.rejected429 lockedMessage := by
  exact ⟨by decide, by decide, by decide, fun w email => rfl, by decide⟩

/-! ## Rate-limiter theorems -/

theorem inMemoryRateLimit_fresh {store : MemStore} {key : String}
    {nowMs windowMs maxRequests : Nat} (h : store key = none) :
    inMemoryRateLimit store key nowMs windowMs maxRequests =
      (⟨true, 1, windowMs⟩, store.set key ⟨1, nowMs + windowMs⟩) := by
  rw [inMemoryRateLimit.eq_def, h]

theorem inMemoryRateLimit_expired {store : MemStore} {key : String}
    {nowMs windowMs maxRequests : Nat} {entry : RLEntry}
    (h : store key = some entry) (hexp : entry.reset < nowMs) :
    inMemoryRateLimit store key nowMs windowMs maxRequests =
      (⟨true, 1, windowMs⟩, store.set key ⟨1, nowMs + windowMs⟩) := by
  rw [inMemoryRateLimit.eq_def, h]
  show inMemoryRateLimitHit store key nowMs windowMs maxRequests entry = _
  rw [inMemoryRateLimitHit, if_pos hexp]

theorem inMemoryRateLimit_live {store : MemStore} {key : String}
    {nowMs windowMs maxRequests : Nat} {entry : RLEntry}
    (h : store key = some entry) (hlive : ¬ entry.reset < nowMs) :
    inMemoryRateLimit store key nowMs windowMs maxRequests =
      (⟨decide (entry.count + 1 ≤ maxRequests), entry.count + 1, entry.reset - nowMs⟩,
       store.set key ⟨entry.count + 1, entry.reset⟩) := by
  rw [inMemoryRateLimit.eq_def, h]
  show inMemoryRateLimitHit store key nowMs windowMs maxRequests entry = _
  rw [inMemoryRateLimitHit, if_neg hlive]
  by_cases hc : maxRequests < entry.count + 1
  · rw [if_pos hc]
    have : decide (entry.count + 1 ≤ maxRequests) = false := by
      simp only [decide_eq_false_iff_not]
      omega
    rw [this]
  · rw [if_neg hc]
    have : decide (entry.count + 1 ≤ maxRequests) = true := by
      simp only [decide_eq_true_eq]
      omega
    rw [this]

/-- The in-memory store after `k` requests for one key at the same instant,
starting empty. -/
def rlRunStore (key : String) (nowMs windowMs maxRequests : Nat) : Nat → MemStore
  | 0 => fun _ => none
  | k + 1 =>
    (inMemoryRateLimit (rlRunStore key nowMs windowMs maxRequests k) key
      nowMs windowMs maxRequests).2

theorem rlRunStore_key (key : String) (nowMs windowMs maxRequests : Nat) :
    ∀ k, rlRunStore key nowMs windowMs maxRequests k key =
      if k = 0 then none else some ⟨k, nowMs + windowMs⟩ := by
  intro k
  induction k with
  | zero => rfl
  | succ k ih =>
    show (inMemoryRateLimit (rlRunStore key nowMs windowMs maxRequests k) key
      nowMs windowMs maxRequests).2 key = _
    by_cases hk : k = 0
    · subst hk
      rw [inMemoryRateLimit_fresh (by rw [ih]; rfl)]
      simp [MemStore.set]
    · have hk' : rlRunStore key nowMs windowMs maxRequests k key =
          some ⟨k, nowMs + windowMs⟩ := by rw [ih, if_neg hk]
      rw [inMemoryRateLimit_live hk' (by simp only [RLEntry.reset]; omega)]
      simp [MemStore.set]

/-- C5: a request is allowed iff its post-increment count satisfies
`count ≤ maxRequests` — on the in-memory limiter and on the Redis path;
in a run of same-window requests from an empty store the `j+1`-th request
carries `count = j + 1` and is allowed exactly when `j + 1 ≤ maxRequests`
(so exactly `maxRequests` requests pass and the next one is rejected);
and the first request on an expired key restarts the window with
`count = 1`. -/
theorem c5_rate_limit_decision (store : MemStore) (rstore : RedisStore) (key : String)
    (nowMs windowMs maxRequests : Nat) (hmax : 1 ≤ maxRequests) :
    ((inMemoryRateLimit store key nowMs windowMs maxRequests).1.allowed = true ↔
      (inMemoryRateLimit store key nowMs windowMs maxRequests).1.count ≤ maxRequests)
    ∧ ((rateLimiterRedisPath rstore key nowMs windowMs maxRequests).1.status = none ↔
      (incrementRateLimit rstore key nowMs (ceilDiv1000 windowMs)).1 ≤ maxRequests)
    ∧ (∀ j, (inMemoryRateLimit (rlRunStore key nowMs windowMs maxRequests j) key
          nowMs windowMs maxRequests).1 =
        ⟨decide (j + 1 ≤ maxRequests), j + 1, windowMs⟩)
    ∧ (∀ entry, store key = some entry → entry.reset < nowMs →
      (inMemoryRateLimit store key nowMs windowMs maxRequests).1 =
        ⟨true, 1, windowMs⟩) := by
  refine ⟨?_, ?_, ?_, ?_⟩
  · rcases hk : store key with _ | e
    · rw [inMemoryRateLimit_fresh hk]
      simp [hmax]
    · by_cases hexp : e.reset < nowMs
      · rw [inMemoryRateLimit_expired hk hexp]
        simp [hmax]
      · rw [inMemoryRateLimit_live hk hexp]
        simp
  · rw [rateLimiterRedisPath]
    by_cases hc : maxRequests < (incrementRateLimit rstore key nowMs (ceilDiv1000 windowMs)).1
    · rw [if_pos hc]
      exact iff_of_false (by simp) (by omega)
    · rw [if_neg hc]
      exact iff_of_true rfl (by omega)
  · intro j
    by_cases hj : j = 0
    · subst hj
      rw [inMemoryRateLimit_fresh rfl]
      have : decide (0 + 1 ≤ maxRequests) = true := by
        simp only [decide_eq_true_eq]
        omega
      rw [this]
    · have hj' : rlRunStore key nowMs windowMs maxRequests j key =
          some ⟨j, nowMs + windowMs⟩ := by rw [rlRunStore_key, if_neg hj]
      rw [inMemoryRateLimit_live hj' (by simp only [RLEntry.reset]; omega)]
      simp only [RLEntry.count, RLEntry.reset]
      congr 1
      omega
  · intro e hk hexp
    rw [inMemoryRateLimit_expired hk hexp]

/-- C5 witness: with limit 5 the 6th same-window request has count 6 and
is denied. -/
theorem c5_rate_limit_decision_witness :
    (inMemoryRateLimit (rlRunStore "rl:/signin:1.2.3.4" 0 60000 5 5) "rl:/signin:1.2.3.4"
        0 60000 5).1 = ⟨decide (5 + 1 ≤ 5), 5 + 1, 60000⟩ :=
  (c5_rate_limit_decision (fun _ => none) (fun _ => none) "rl:/signin:1.2.3.4"
    0 60000 5 (by omega)).2.2.1 5

theorem inMemoryRateLimit_denied_count {store : MemStore} {key : String}
    {nowMs windowMs maxRequests : Nat}
    (h : (inMemoryRateLimit store key nowMs windowMs maxRequests).1.allowed = false) :
    maxRequests < (inMemoryRateLimit store key nowMs windowMs maxRequests).1.count := by
  rcases hk : store key with _ | e
  · rw [inMemoryRateLimit_fresh hk] at h
    exact absurd h (by simp)
  · by_cases hexp : e.reset < nowMs
    · rw [inMemoryRateLimit_expired hk hexp] at h
      exact absurd h (by simp)
    · rw [inMemoryRateLimit_live hk hexp] at h ⊢
      simp only [RLDecision.allowed, decide_eq_false_iff_not] at h
      simp only [RLDecision.count]
      omega

/-- C6 (amended): on an in-memory denial the response is a 429 with
`Retry-After = ceil(resetIn / 1000)` (remaining window time), the limit
header, and remaining `0 = max(0, maxRequests - count)`; on a Redis-path
denial the response is a 429 whose `Retry-After` is the FULL window length
`ceil(windowMs / 1000)`, independent of the remaining time. -/
theorem c6_denial_retry_after (mem : MemStore) (rstore : RedisStore) (key : String)
    (nowMs windowMs maxRequests : Nat) :
    ((inMemoryRateLimit mem key nowMs windowMs maxRequests).1.allowed = false →
      (rateLimiterMemoryPath mem key nowMs windowMs maxRequests).1 =
        ⟨some 429,
         some (ceilDiv1000 (inMemoryRateLimit mem key nowMs windowMs maxRequests).1.resetIn),
         maxRequests, 0⟩
      ∧ maxRequests - (inMemoryRateLimit mem key nowMs windowMs maxRequests).1.count = 0)
    ∧ (maxRequests < (incrementRateLimit rstore key nowMs (ceilDiv1000 windowMs)).1 →
      (rateLimiterRedisPath rstore key nowMs windowMs maxRequests).1 =
        ⟨some 429, some (ceilDiv1000 windowMs), maxRequests, 0⟩) := by
  constructor
  · intro hden
    have hcount := inMemoryRateLimit_denied_count hden
    refine ⟨?_, by omega⟩
    rw [rateLimiterMemoryPath, if_pos (by rw [hden]; rfl)]
  · intro hc
    rw [rateLimiterRedisPath, if_pos hc]

/-- C6 witness: a denial on a fresh in-memory store cannot happen with
limit ≥ 1, so the witness exercises the Redis conjunct: a 6th request
over limit 5 is denied with the full-window Retry-After. -/
theorem c6_denial_retry_after_witness :
    5 < (incrementRateLimit (fun _ => some ⟨5, 60000⟩) "k" 30000 60).1 ∧
    (rateLimiterRedisPath (fun _ => some ⟨5, 60000⟩) "k" 30000 60000 5).1 =
      ⟨some 429, some (ceilDiv1000 60000), 5, 0⟩ :=
  ⟨by decide,
   (c6_denial_retry_after (fun _ => none) (fun _ => some ⟨5, 60000⟩) "k" 30000 60000 5).2
     (by decide)⟩

/-- The Redis store after `k` requests for one key at the same instant,
starting empty, through the Redis branch of the middleware. -/
def redisRunStore (key : String) (nowMs windowMs maxRequests : Nat) : Nat → RedisStore
  | 0 => fun _ => none
  | k + 1 =>
    (rateLimiterRedisPath (redisRunStore key nowMs windowMs maxRequests k) key
      nowMs windowMs maxRequests).2

/-- C6 counterexample: five requests at t = 0 and a sixth at t = 30000
(60-second window, limit 5).  The sixth is denied; the counter expires at
t = 60000, so the remaining time is 30000 ms and the claim requires
`Retry-After = ceil(30000 / 1000) = 30`, but the Redis path answers with
the full window, `Retry-After = 60`. -/
theorem c6_counterexample :
    (rateLimiterRedisPath (redisRunStore "k" 0 60000 5 5) "k" 30000 60000 5).1.status =
      some 429
    ∧ (rateLimiterRedisPath (redisRunStore "k" 0 60000 5 5) "k" 30000 60000 5).1.retryAfter =
      some 60
    ∧ redisTTLms (rateLimiterRedisPath (redisRunStore "k" 0 60000 5 5) "k"
        30000 60000 5).2 "k" 30000 = 30000
    ∧ ceilDiv1000 30000 = 30 := by
  exact ⟨by decide, by decide, by decide, by decide⟩

/-- C9: when the backing store is unreachable the lockout check returns 0
failures and the sign-in proceeds to credential verification; and the rate
limiter falls back to the in-process counter, producing the in-memory
response (a total function of the request — the error is consumed, never
re-thrown). -/
theorem c9_fail_open_fallback (email : String) (since nowMs : Nat)
    (credentialsOk : Bool) (windowMs maxRequests : Nat) (mem : MemStore)
    (key : String) :
    getFailedAttempts (.error ()) email since = 0
    ∧ (signinHandler (.error ()) email nowMs credentialsOk).1 =
        (if credentialsOk then SignInResult.signedIn else .credentialError)
    ∧ rateLimitMiddleware windowMs maxRequests true (.error ()) mem key nowMs =
        ((rateLimiterMemoryPath mem key nowMs windowMs maxRequests).1, .error (),
         (rateLimiterMemoryPath mem key nowMs windowMs maxRequests).2) := by
  refine ⟨rfl, ?_, ?_⟩
  · simp only [signinHandler, getFailedAttempts]
    rw [if_neg (by decide)]
    cases credentialsOk <;> rfl
  · rfl

end SecureAuth
